import Mathlib

/-!
Shallow embedding of the metrics and valuation engine of the
stock-portfolio performance analyzer.

Modelling conventions:

* A pandas `Series` of closing prices (or returns) indexed by dates is a
  `List (ℕ × ℚ)`: the first component is the date (an abstract day number,
  strictly increasing along a price series per the data model), the second
  is the value.  Float arithmetic is idealized as exact rational
  arithmetic; price series are assumed positive-valued (the data model's
  closing prices), under which `pct_change().dropna()` drops exactly the
  first entry and produces no further NaN/inf values.
* A pandas NaN produced by a degenerate statistic (e.g. `std` with fewer
  than two observations, `ddof = 1`) is modelled as `none` of an
  `Option ℚ`; NaN propagation through arithmetic and the falsity of
  `NaN == 0` are modelled by matching on the option.
* `math.sqrt` / `np.sqrt` is an opaque-to-the-logic parameter
  `sq : ℚ → ℚ` (its numeric value is never needed by the claims), and
  Python's `**` power operator is a parameter `rpow : ℚ → ℚ → ℚ`.
-/

namespace StockPortfolio

/-- Model of `MetricsCalculator.calculate_returns`: `prices.pct_change().dropna()`.
For a positive price series the entry at `prices[i]`'s date (`i ≥ 1`) is
`prices[i]/prices[i-1] - 1` and the first (NaN) entry is dropped. -/
def calculateReturns (prices : List (ℕ × ℚ)) : List (ℕ × ℚ) :=
  (prices.zip prices.tail).map (fun q => (q.2.1, q.2.2 / q.1.2 - 1))

/-- Model of `MetricsCalculator.calculate_total_return`: `final / initial - 1`. -/
def calculateTotalReturn (initialValue finalValue : ℚ) : ℚ :=
  finalValue / initialValue - 1

/-- Model of `MetricsCalculator.calculate_annualized_return`:
`(1 + total_return) ** (1 / years) - 1`, with `**` the parameter `rpow`. -/
def calculateAnnualizedReturn (rpow : ℚ → ℚ → ℚ) (totalReturn years : ℚ) : ℚ :=
  rpow (1 + totalReturn) (1 / years) - 1

/-- Mean of a list of rationals (`Series.mean` on a nonempty series). -/
def listMean (xs : List ℚ) : ℚ :=
  xs.sum / xs.length

/-- Model of `Series.mean`: NaN (`none`) on an empty series. -/
def seriesMean (xs : List ℚ) : Option ℚ :=
  if xs.isEmpty then none else some (listMean xs)

/-- Sample variance with `ddof = 1` (the value under pandas `Series.std`
before the square root), meaningful only for two or more observations. -/
def sampleVar (xs : List ℚ) : ℚ :=
  ((xs.map (fun x => (x - listMean xs) ^ 2)).sum) / ((xs.length : ℚ) - 1)

/-- pandas `Series.std` (`ddof = 1`): NaN (`none`) with fewer than two
observations, otherwise the square root (parameter `sq`) of the sample
variance. -/
def seriesStd (sq : ℚ → ℚ) (xs : List ℚ) : Option ℚ :=
  if xs.length < 2 then none else some (sq (sampleVar xs))

/-- Model of `MetricsCalculator.calculate_volatility`: `returns.std()`, multiplied
by `sqrt(trading_days)` when `annualize` is set. -/
def calculateVolatility (sq : ℚ → ℚ) (tradingDays : ℚ) (annualize : Bool)
    (returns : List ℚ) : Option ℚ :=
  match seriesStd sq returns with
  | none => none
  | some vol => some (if annualize then vol * sq tradingDays else vol)

/-- Model of `MetricsCalculator.calculate_sharpe_ratio`: excess returns are
`returns - risk_free_rate/trading_days`; result is `0.0` when their std
is (exactly) `0`, NaN when the std is NaN (the Python `NaN == 0` check is
false, and the subsequent division propagates NaN), otherwise
`mean(excess)/std(excess) * sqrt(trading_days)`. -/
def calculateSharpeRatio (sq : ℚ → ℚ) (tradingDays riskFreeRate : ℚ)
    (returns : List ℚ) : Option ℚ :=
  let dailyRf := riskFreeRate / tradingDays
  let excessReturns := returns.map (fun r => r - dailyRf)
  match seriesStd sq excessReturns with
  | none => none
  | some s =>
    if s = 0 then some 0
    else
      match seriesMean excessReturns with
      | none => none
      | some m => some (m / s * sq tradingDays)

/-- Model of `MetricsCalculator.calculate_sortino_ratio`: numerator statistics over
ALL excess returns, denominator the std of the raw returns strictly below
zero; result `0.0` when the downside std is exactly `0`, NaN when it is
NaN. -/
def calculateSortinoRatio (sq : ℚ → ℚ) (tradingDays riskFreeRate : ℚ)
    (returns : List ℚ) : Option ℚ :=
  let dailyRf := riskFreeRate / tradingDays
  let excessReturns := returns.map (fun r => r - dailyRf)
  let downsideReturns := returns.filter (fun r => r < 0)
  match seriesStd sq downsideReturns with
  | none => none
  | some downsideStd =>
    if downsideStd = 0 then some 0
    else
      match seriesMean excessReturns with
      | none => none
      | some m => some (m / downsideStd * sq tradingDays)

/-- Dated cumulative product (`(1 + returns).cumprod()` after the `map`
below supplies the `1 + r` values). -/
def cumprodD (acc : ℚ) : List (ℕ × ℚ) → List (ℕ × ℚ)
  | [] => []
  | (d, x) :: tl => (d, acc * x) :: cumprodD (acc * x) tl

/-- Helper for `expandingMax`: running maximum with accumulator. -/
def expMaxGo (m : ℚ) : List (ℕ × ℚ) → List (ℕ × ℚ)
  | [] => []
  | (d, x) :: tl => (d, max m x) :: expMaxGo (max m x) tl

/-- pandas `Series.expanding().max()`. -/
def expandingMax (l : List (ℕ × ℚ)) : List (ℕ × ℚ) :=
  match l with
  | [] => []
  | (_, x) :: _ => expMaxGo x l

/-- Model of `MetricsCalculator.calculate_max_drawdown`:
`cumulative = (1 + calculate_returns(prices)).cumprod()`,
`running_max = cumulative.expanding().max()`,
`drawdown = cumulative / running_max - 1`, returning
`(drawdown.min(), running_max[:drawdown.idxmin()].idxmax(), drawdown.idxmin())`.
`idxmin`/`idxmax` pick the first index attaining the extremum;
`running_max[:bottom_date]` is the label slice of the ascending date
index up to and including the trough date.  `none` models the
`ValueError` pandas raises from `idxmin` on an empty series (price series
with fewer than two points). -/
def calculateMaxDrawdown (prices : List (ℕ × ℚ)) : Option (ℚ × ℕ × ℕ) :=
  let rets := calculateReturns prices
  let cumulative := cumprodD 1 (rets.map (fun q => (q.1, 1 + q.2)))
  let runningMax := expandingMax cumulative
  let drawdown := (cumulative.zip runningMax).map (fun q => (q.1.1, q.1.2 / q.2.2 - 1))
  match drawdown with
  | [] => none
  | dh :: dt =>
    let maxDrawdown := dt.foldl (fun a q => min a q.2) dh.2
    match drawdown.find? (fun q => q.2 == maxDrawdown) with
    | none => none
    | some bottom =>
      let sliced := runningMax.filter (fun q => q.1 ≤ bottom.1)
      match sliced with
      | [] => none
      | sh :: st =>
        let mx := st.foldl (fun a q => max a q.2) sh.2
        match sliced.find? (fun q => q.2 == mx) with
        | none => none
        | some peak => some (maxDrawdown, peak.1, bottom.1)

/-- Sample covariance with `ddof = 1` of a list of pairs (pandas
`Series.cov` over already-aligned columns), meaningful only for two or
more rows. -/
def sampleCov (ps : List (ℚ × ℚ)) : ℚ :=
  let mx := listMean (ps.map (fun q => q.1))
  let my := listMean (ps.map (fun q => q.2))
  ((ps.map (fun q => (q.1 - mx) * (q.2 - my))).sum) / ((ps.length : ℚ) - 1)

/-- Model of `MetricsCalculator.calculate_beta`: inner-join the two dated return
series on their dates (`pd.concat(..., axis=1).dropna()`), then
`cov/var`; `0.0` when the market variance is exactly `0`, NaN (`none`)
when `cov`/`var` are NaN (fewer than two aligned rows, so the Python
`market_variance == 0` check is false and `NaN / NaN` propagates). -/
def calculateBeta (portfolioReturns marketReturns : List (ℕ × ℚ)) : Option ℚ :=
  let aligned := portfolioReturns.filterMap
    (fun q => (marketReturns.find? (fun m => m.1 == q.1)).map (fun m => (q.2, m.2)))
  if aligned.length < 2 then none
  else
    let marketVariance := sampleVar (aligned.map (fun q => q.2))
    if marketVariance = 0 then some 0
    else some (sampleCov aligned / marketVariance)

/-- Model of `MetricsCalculator.calculate_alpha`:
`portfolio_return - (rf + beta * (market_return - rf))`. -/
def calculateAlpha (portfolioReturn beta marketReturn riskFreeRate : ℚ) : ℚ :=
  portfolioReturn - (riskFreeRate + beta * (marketReturn - riskFreeRate))

/-- Model of `MetricsCalculator.calculate_win_ratio`: fraction of strictly positive
returns, `0.0` on an empty series. -/
def calculateWinRatio (returns : List ℚ) : ℚ :=
  if returns.length = 0 then 0
  else ((returns.filter (fun r => 0 < r)).length : ℚ) / (returns.length : ℚ)

/-- Result type of `calculate_profit_to_loss_ratio`: either a finite
rational or the Python `float('inf')` sentinel. -/
inductive PLRatio where
  | finite (q : ℚ)
  | infinite
deriving DecidableEq, Repr

/-- Model of `MetricsCalculator.calculate_profit_to_loss_ratio`:
`((1 + returns).prod() - 1)` divided by the sum of absolute values of the
negative returns, `float('inf')` when that sum is `0`. -/
def calculateProfitToLossRatio (returns : List ℚ) : PLRatio :=
  let totalReturn := (returns.map (fun r => 1 + r)).prod - 1
  let loss := ((returns.filter (fun r => r < 0)).map (fun r => |r|)).sum
  if loss = 0 then PLRatio.infinite
  else PLRatio.finite (totalReturn / loss)

/-- One entry of `PortfolioAnalyzer`'s state for a ticker: the holding's
`shares` and `purchase_date` from `self.portfolio`, together with the
fetched price series `self.holdings_data[ticker]` (its `Close` column,
dated); `data = none` models a ticker absent from `holdings_data`, which
the valuation loop skips (`continue`). `purchase_price` plays no role in
the value-history or metrics computations and is omitted. -/
structure PHolding where
  shares : ℚ
  purchaseDate : ℕ
  data : Option (List (ℕ × ℚ))
deriving DecidableEq, Repr

/-- The price lookup inside `calculate_portfolio_value_history`: the
closing price exactly on `date` when `date in df.index`, otherwise the
last entry of the label slice `df.loc[:date]` (all rows with index
`≤ date` on the ascending date index), otherwise `none` (`continue`). -/
def lookupPrice (df : List (ℕ × ℚ)) (date : ℕ) : Option ℚ :=
  match df.find? (fun r => r.1 == date) with
  | some r => some r.2
  | none => ((df.filter (fun r => r.1 ≤ date)).getLast?).map (fun r => r.2)

/-- The per-holding summand of the valuation loop's `total_value` for one
date: `0` on every `continue` path (ticker without data, date before the
purchase date, no eligible price at or before the date), otherwise
`shares * price`. -/
def holdingContrib (h : PHolding) (date : ℕ) : ℚ :=
  match h.data with
  | none => 0
  | some df =>
    if date < h.purchaseDate then 0
    else
      match lookupPrice df date with
      | none => 0
      | some price => h.shares * price

/-- The `total_value` accumulated over the portfolio for one date. -/
def totalValueOn (hs : List PHolding) (date : ℕ) : ℚ :=
  (hs.map (fun h => holdingContrib h date)).sum

/-- Model of `all_dates = sorted(set(union of holdings' indices))`. -/
def allDates (hs : List PHolding) : List ℕ :=
  ((hs.flatMap (fun h => (h.data.getD []).map (fun r => r.1))).dedup).insertionSort (· ≤ ·)

/-- Model of `Series.dropna`: keep the entries holding a numeric value. -/
def dropna (l : List (ℕ × Option ℚ)) : List (ℕ × ℚ) :=
  l.filterMap (fun q => q.2.map (fun v => (q.1, v)))

/-- Model of `PortfolioAnalyzer.calculate_portfolio_value_history`: build the
sorted union date grid, initialize `portfolio_values` to all-NaN
(`pd.Series(index=all_dates, dtype=float)`), assign
`portfolio_values[date] = total_value` for every grid date (the loop
body runs for every date and always assigns, starting from
`total_value = 0.0`), then `dropna()`. -/
def calculatePortfolioValueHistory (hs : List PHolding) : List (ℕ × ℚ) :=
  let dates := allDates hs
  let initialSeries : List (ℕ × Option ℚ) := dates.map (fun d => (d, none))
  let assigned := initialSeries.map (fun q => (q.1, some (totalValueOn hs q.1)))
  dropna assigned

/-- Model of `iloc[0]` of the value column of a dated series (the callers only use
it on nonempty series). -/
def firstValue (l : List (ℕ × ℚ)) : ℚ :=
  (l.headD (0, 0)).2

/-- Model of `iloc[-1]` of the value column of a dated series. -/
def lastValue (l : List (ℕ × ℚ)) : ℚ :=
  (l.getLastD (0, 0)).2

/-- The `self.metrics` dictionary assembled by
`PortfolioAnalyzer.calculate_metrics`.  The fields `beta` and `alpha` are
`Option (Option ℚ)`: the outer layer is Python `None` (benchmark absent
or empty) versus present, the inner layer is the NaN-ness of the computed
float.  `benchmarkReturn` is `None` or a (total) computed rational. -/
structure MetricsResult where
  initialValue : ℚ
  finalValue : ℚ
  totalReturn : ℚ
  annualizedReturn : ℚ
  volatility : Option ℚ
  sharpeRatio : Option ℚ
  sortinoRatio : Option ℚ
  maxDrawdown : ℚ
  maxDdPeakDate : ℕ
  maxDdTroughDate : ℕ
  winRate : ℚ
  beta : Option (Option ℚ)
  alpha : Option (Option ℚ)
  benchmarkReturn : Option ℚ
  days : ℕ
  years : ℚ
deriving DecidableEq, Repr

/-- Model of `PortfolioAnalyzer.calculate_metrics`.  `none` models both early
returns: an empty (or never-computed) portfolio history, and the
`ValueError` raised inside `calculate_max_drawdown` on a history with
fewer than two points (so `self.metrics` is never populated).
`benchmarkClose` is the `Close` column of `self.benchmark_data`
(`none` = the attribute is `None`).  `years = days / 365.25`;
the risk-free rate (source default `0.03`) and `trading_days`
(source default `252`) are parameters. -/
def calculateMetrics (sq : ℚ → ℚ) (rpow : ℚ → ℚ → ℚ)
    (riskFreeRate tradingDays : ℚ) (history : List (ℕ × ℚ))
    (benchmarkClose : Option (List (ℕ × ℚ))) : Option MetricsResult :=
  match history with
  | [] => none
  | h0 :: _ =>
    let portfolioReturnsD := calculateReturns history
    let portfolioReturns := portfolioReturnsD.map (fun q => q.2)
    let initialValue := h0.2
    let finalValue := lastValue history
    let days := (history.getLastD (0, 0)).1 - h0.1
    let years : ℚ := (days : ℚ) / (1461 / 4 : ℚ)
    let totalReturn := calculateTotalReturn initialValue finalValue
    let annualizedReturn := calculateAnnualizedReturn rpow totalReturn years
    let volatility := calculateVolatility sq tradingDays true portfolioReturns
    let sharpeRatio := calculateSharpeRatio sq tradingDays riskFreeRate portfolioReturns
    let sortinoRatio := calculateSortinoRatio sq tradingDays riskFreeRate portfolioReturns
    match calculateMaxDrawdown history with
    | none => none
    | some (maxDrawdown, peakDate, troughDate) =>
      let winRate := calculateWinRatio portfolioReturns
      let triple : Option (Option ℚ) × Option (Option ℚ) × Option ℚ :=
        match benchmarkClose with
        | none => (none, none, none)
        | some bs =>
          if bs.isEmpty then (none, none, none)
          else
            let benchmarkReturns := calculateReturns bs
            let beta := calculateBeta portfolioReturnsD benchmarkReturns
            let benchmarkTotalReturn := calculateTotalReturn (firstValue bs) (lastValue bs)
            let benchmarkAnnualizedReturn :=
              calculateAnnualizedReturn rpow benchmarkTotalReturn years
            let alpha := beta.map (fun b =>
              calculateAlpha annualizedReturn b benchmarkAnnualizedReturn riskFreeRate)
            (some beta, some alpha, some benchmarkAnnualizedReturn)
      some
        { initialValue := initialValue
          finalValue := finalValue
          totalReturn := totalReturn
          annualizedReturn := annualizedReturn
          volatility := volatility
          sharpeRatio := sharpeRatio
          sortinoRatio := sortinoRatio
          maxDrawdown := maxDrawdown
          maxDdPeakDate := peakDate
          maxDdTroughDate := troughDate
          winRate := winRate
          beta := triple.1
          alpha := triple.2.1
          benchmarkReturn := triple.2.2
          days := days
          years := years }

/-- Spec-side restatement of the Sortino ratio, written from the spec's
words: the numerator is the mean of ALL excess returns (daily return
minus `risk_free_rate/trading_days`), the denominator is the standard
deviation of only the raw returns strictly less than zero, the quotient
is multiplied by `sqrt(trading_days)`, and the result is `0` whenever the
downside standard deviation is `0` (and NaN when the downside standard
deviation or the mean is NaN). -/
def sortinoRatioSpec (sq : ℚ → ℚ) (tradingDays riskFreeRate : ℚ)
    (returns : List ℚ) : Option ℚ :=
  let excessMean := seriesMean (returns.map (fun r => r - riskFreeRate / tradingDays))
  let downsideStd := seriesStd sq (returns.filter (fun r => r < 0))
  match downsideStd with
  | none => none
  | some s =>
    if s = 0 then some 0
    else excessMean.map (fun m => m / s * sq tradingDays)

/-- Multiply a holding's share count by `c`, leaving everything else
(purchase date, price data) unchanged. -/
def scaleShares (c : ℚ) (h : PHolding) : PHolding :=
  { h with shares := c * h.shares }

/-! ### Helper lemmas -/

theorem valueHistory_eq_map (hs : List PHolding) :
    calculatePortfolioValueHistory hs =
      (allDates hs).map (fun d => (d, totalValueOn hs d)) := by
  unfold calculatePortfolioValueHistory dropna
  induction allDates hs with
  | nil => rfl
  | cons d tl ih => simpa using ih

theorem allDates_sorted (hs : List PHolding) :
    List.Sorted (· < ·) (allDates hs) := by
  have hperm := List.perm_insertionSort (α := ℕ) (· ≤ ·)
    ((hs.flatMap (fun h => (h.data.getD []).map (fun r => r.1))).dedup)
  have hnd : (allDates hs).Nodup :=
    (hperm.nodup_iff).2 (List.nodup_dedup _)
  have hsle : List.Sorted (· ≤ ·) (allDates hs) :=
    List.sorted_insertionSort _ _
  exact hsle.lt_of_le hnd

theorem mem_allDates (hs : List PHolding) (d : ℕ) :
    d ∈ allDates hs ↔ ∃ h ∈ hs, ∃ pr ∈ h.data.getD [], pr.1 = d := by
  simp [allDates, List.mem_insertionSort, List.mem_dedup, List.mem_flatMap,
    List.mem_map]

/-! ### Claims -/

/-- Claim C1 (status: code bug).  On the price series `[100, 50, 100]`
(dates `0, 1, 2`) the source's `calculate_max_drawdown` returns
`max_drawdown = 0.0` with `peak_date = trough_date = ` the middle date,
not the claimed `-0.5` with peak at the first date: dropping the first
(NaN) return before `cumprod` removes the initial price level from the
running maximum, so the 50% drop from the start is invisible. -/
theorem maxDrawdown_100_50_100_evaluates_to_zero :
    calculateMaxDrawdown [(0, 100), (1, 50), (2, 100)] = some (0, 1, 1) := by
  simp [calculateMaxDrawdown, calculateReturns, cumprodD, expandingMax, expMaxGo,
    List.find?, List.filter]
  norm_num

/-- Claim C3 (counterexample).  On the empty return series (derived from
the one-point price series `[(0, 100)]`) volatility, Sharpe and Sortino
do not return `0`: pandas `std` with fewer than two observations is NaN,
the `== 0` guards are false on NaN, and NaN propagates to the result. -/
theorem emptyReturns_stats_not_zero :
    calculateReturns [(0, 100)] = [] ∧
    calculateVolatility id 252 true [] ≠ some 0 ∧
    calculateSharpeRatio id 252 (3 / 100) [] ≠ some 0 ∧
    calculateSortinoRatio id 252 (3 / 100) [] ≠ some 0 := by
  refine ⟨rfl, ?_, ?_, ?_⟩ <;>
    simp [calculateVolatility, calculateSharpeRatio, calculateSortinoRatio, seriesStd]

/-- Claim C3 (amended).  For every price series of length 1 the derived
return series is empty, and volatility, Sharpe and Sortino applied to an
empty return series each return NaN (`none`) — an ordinary value, not a
raised error — rather than `0`. -/
theorem returns_singleton_empty_and_stats_nan (sq : ℚ → ℚ) (tdays rf : ℚ)
    (ann : Bool) (d : ℕ) (p : ℚ) :
    calculateReturns [(d, p)] = [] ∧
    calculateVolatility sq tdays ann [] = none ∧
    calculateSharpeRatio sq tdays rf [] = none ∧
    calculateSortinoRatio sq tdays rf [] = none :=
  ⟨rfl, rfl, rfl, rfl⟩

/-- Claim C4 (confirmed).  `calculate_sortino_ratio` computes exactly the
spec's formula: mean of ALL excess returns over the standard deviation of
only the raw returns strictly below zero, scaled by
`sqrt(trading_days)`, with result `0` whenever the downside standard
deviation is `0`. -/
theorem sortino_matches_spec (sq : ℚ → ℚ) (tdays rf : ℚ) (rs : List ℚ) :
    calculateSortinoRatio sq tdays rf rs = sortinoRatioSpec sq tdays rf rs := by
  unfold calculateSortinoRatio sortinoRatioSpec
  cases h : seriesStd sq (rs.filter (fun r => r < 0)) with
  | none => simp [h]
  | some s =>
    by_cases hs0 : s = 0
    · simp [h, hs0]
    · cases hm : seriesMean (rs.map (fun r => r - rf / tdays)) <;>
        simp [h, hs0, hm]

/-- Claim C8 (confirmed).  `calculate_profit_to_loss_ratio` divides the
compounded total return by the sum of absolute values of the negative
returns, returning the infinite sentinel when that sum is `0`; in
particular it is infinite on a series with no negative entry. -/
theorem profitToLoss_spec (rs : List ℚ) :
    (calculateProfitToLossRatio rs =
      if ((rs.filter (fun r => r < 0)).map (fun r => |r|)).sum = 0 then
        PLRatio.infinite
      else
        PLRatio.finite (((rs.map (fun r => 1 + r)).prod - 1) /
          ((rs.filter (fun r => r < 0)).map (fun r => |r|)).sum)) ∧
    ((∀ r ∈ rs, 0 ≤ r) → calculateProfitToLossRatio rs = PLRatio.infinite) := by
  constructor
  · rfl
  · intro hpos
    have hfil : rs.filter (fun r => r < 0) = [] := by
      rw [List.filter_eq_nil_iff]
      intro a ha
      simpa using not_lt.2 (hpos a ha)
    unfold calculateProfitToLossRatio
    simp [hfil]

/-- Witness for C8 at the all-positive return series `[1/10, 2/10]`. -/
theorem profitToLoss_spec_witness :
    calculateProfitToLossRatio [1 / 10, 2 / 10] = PLRatio.infinite :=
  (profitToLoss_spec [1 / 10, 2 / 10]).2 (by norm_num)

/-- Claim C2 (counterexample).  For a holding purchased on date `1` whose
price series nevertheless starts at date `0`, date `0` — on which no
holding contributes any value (`holdingContrib … = 0`) — is NOT excluded
from the final series: it appears with total `0.0`. -/
theorem zeroTotal_date_kept_in_history :
    calculatePortfolioValueHistory [⟨1, 1, some [(0, 10), (1, 10)]⟩] =
      [(0, 0), (1, 10)] ∧
    holdingContrib ⟨1, 1, some [(0, 10), (1, 10)]⟩ 0 = 0 := by
  refine ⟨?_, ?_⟩ <;>
    simp [calculatePortfolioValueHistory, allDates, dropna, totalValueOn,
      holdingContrib, lookupPrice, List.insertionSort, List.orderedInsert,
      List.dedup, List.find?, List.filter, List.flatMap]

/-- Claim C2 (amended).  Every date of the union date grid — including
dates on which no holding contributes, whose total is `0.0` — appears in
the series produced by `calculate_portfolio_value_history`, paired with
its (possibly zero) total; no date is excluded. -/
theorem every_grid_date_in_history (hs : List PHolding) (d : ℕ)
    (hd : d ∈ allDates hs) :
    (d, totalValueOn hs d) ∈ calculatePortfolioValueHistory hs := by
  rw [valueHistory_eq_map]
  exact List.mem_map_of_mem _ hd

/-- Witness for the amended C2: the zero-contribution date `0` appears in
the series of the one-holding portfolio purchased at date `1`. -/
theorem every_grid_date_in_history_witness :
    (0, totalValueOn [⟨1, 1, some [(0, 10), (1, 10)]⟩] 0) ∈
      calculatePortfolioValueHistory [⟨1, 1, some [(0, 10), (1, 10)]⟩] :=
  every_grid_date_in_history _ 0 (by decide)

/-- Claim C10 (confirmed).  `calculate_portfolio_value_history` assigns a
numeric total to every union-grid date, so the `dropna` step removes
nothing: the result is exactly the sorted union date grid paired with the
per-date totals — one entry per distinct date across all holdings'
series, sorted strictly ascending by date. -/
theorem valueHistory_complete_sorted (hs : List PHolding) :
    calculatePortfolioValueHistory hs =
      (allDates hs).map (fun d => (d, totalValueOn hs d)) ∧
    List.Sorted (· < ·) ((calculatePortfolioValueHistory hs).map (fun q => q.1)) ∧
    ∀ d : ℕ, d ∈ (calculatePortfolioValueHistory hs).map (fun q => q.1) ↔
      ∃ h ∈ hs, ∃ pr ∈ h.data.getD [], pr.1 = d := by
  have hmap : (calculatePortfolioValueHistory hs).map (fun q => q.1) = allDates hs := by
    rw [valueHistory_eq_map, List.map_map]
    simp [Function.comp_def]
  refine ⟨valueHistory_eq_map hs, ?_, ?_⟩
  · rw [hmap]
    exact allDates_sorted hs
  · intro d
    rw [hmap]
    exact mem_allDates hs d

/-- Claim C6 (confirmed).  For every (positive-valued) price series the
derived daily-return series has length `input length - 1` (`0` when the
input has fewer than 2 points) and its `i`-th entry carries the date of
`prices[i+1]` and the value `prices[i+1]/prices[i] - 1`. -/
theorem returns_formula (prices : List (ℕ × ℚ))
    (hpos : ∀ q ∈ prices, (0 : ℚ) < q.2) :
    (calculateReturns prices).length = prices.length - 1 ∧
    ∀ i, i + 1 < prices.length →
      (calculateReturns prices).getD i (0, 0) =
        ((prices.getD (i + 1) (0, 0)).1,
          (prices.getD (i + 1) (0, 0)).2 / (prices.getD i (0, 0)).2 - 1) := by
  have hlen : (calculateReturns prices).length = prices.length - 1 := by
    simp [calculateReturns, List.length_zip, List.length_tail]
  refine ⟨hlen, ?_⟩
  intro i hi
  have h1 : i < (calculateReturns prices).length := by omega
  have h2 : i < prices.length := by omega
  have h3 : i < prices.tail.length := by
    simp [List.length_tail]
    omega
  rw [List.getD_eq_getElem _ _ h1, List.getD_eq_getElem _ _ hi,
    List.getD_eq_getElem _ _ h2]
  simp [calculateReturns, List.getElem_zip, List.getElem_tail]

/-- Witness for C6: on `[100, 110, 99]` the returns are
`[0.10, -0.10]` (carried on the second and third dates). -/
theorem returns_formula_witness :
    (calculateReturns [(0, 100), (1, 110), (2, 99)]).length = 2 ∧
    (calculateReturns [(0, 100), (1, 110), (2, 99)]).getD 0 (0, 0) = (1, 1 / 10) ∧
    (calculateReturns [(0, 100), (1, 110), (2, 99)]).getD 1 (0, 0) = (2, -(1 / 10)) := by
  have h := returns_formula [(0, 100), (1, 110), (2, 99)] (by norm_num)
  refine ⟨h.1, ?_, ?_⟩
  · rw [h.2 0 (by norm_num)]
    norm_num
  · rw [h.2 1 (by norm_num)]
    norm_num

theorem holdingContrib_scale (c : ℚ) (h : PHolding) (d : ℕ) :
    holdingContrib (scaleShares c h) d = c * holdingContrib h d := by
  obtain ⟨s, pd, data⟩ := h
  cases data with
  | none => simp [holdingContrib, scaleShares]
  | some df =>
    by_cases hlt : d < pd
    · simp [holdingContrib, scaleShares, hlt]
    · cases hl : lookupPrice df d <;>
        simp [holdingContrib, scaleShares, hlt, hl, mul_assoc]

theorem totalValueOn_single (x : PHolding) (d : ℕ) :
    totalValueOn [x] d = holdingContrib x d := by
  simp [totalValueOn]

theorem allDates_scale (c : ℚ) (h : PHolding) :
    allDates [scaleShares c h] = allDates [h] :=
  rfl

theorem getLastD_map_pair (c : ℚ) :
    ∀ (l : List (ℕ × ℚ)) (a : ℕ × ℚ),
      (l.map (fun q => (q.1, c * q.2))).getLastD (a.1, c * a.2) =
        ((l.getLastD a).1, c * (l.getLastD a).2)
  | [], _ => rfl
  | b :: tl, a => by
    simp only [List.map_cons, List.getLastD_cons]
    exact getLastD_map_pair c tl b

theorem firstValue_map_scale (c : ℚ) (l : List (ℕ × ℚ)) :
    firstValue (l.map (fun q => (q.1, c * q.2))) = c * firstValue l := by
  cases l <;> simp [firstValue]

theorem lastValue_map_scale (c : ℚ) (l : List (ℕ × ℚ)) :
    lastValue (l.map (fun q => (q.1, c * q.2))) = c * lastValue l := by
  cases l with
  | nil => simp [lastValue]
  | cons a tl =>
    unfold lastValue
    simp only [List.map_cons, List.getLastD_cons]
    rw [getLastD_map_pair c tl a]

/-- Claim C9 (confirmed).  For a single-holding portfolio, multiplying
the share count by a positive `c` multiplies every entry of the value
series by `c` and leaves `total_return` (computed by
`calculate_total_return` from the first and last series values)
unchanged. -/
theorem singleHolding_scaling (c : ℚ) (hc : 0 < c) (h : PHolding)
    (hne : calculatePortfolioValueHistory [h] ≠ []) :
    calculatePortfolioValueHistory [scaleShares c h] =
      (calculatePortfolioValueHistory [h]).map (fun q => (q.1, c * q.2)) ∧
    calculateTotalReturn
        (firstValue (calculatePortfolioValueHistory [scaleShares c h]))
        (lastValue (calculatePortfolioValueHistory [scaleShares c h])) =
      calculateTotalReturn
        (firstValue (calculatePortfolioValueHistory [h]))
        (lastValue (calculatePortfolioValueHistory [h])) := by
  have hmain : calculatePortfolioValueHistory [scaleShares c h] =
      (calculatePortfolioValueHistory [h]).map (fun q => (q.1, c * q.2)) := by
    rw [valueHistory_eq_map, valueHistory_eq_map, allDates_scale, List.map_map]
    congr 1
    funext d
    simp [Function.comp, totalValueOn_single, holdingContrib_scale]
  refine ⟨hmain, ?_⟩
  rw [hmain, firstValue_map_scale, lastValue_map_scale]
  unfold calculateTotalReturn
  rw [mul_div_mul_left _ _ (ne_of_gt hc)]

/-- Witness for C9: tripling a 2-share holding with prices `[10, 12]`
triples the value series and preserves the total return. -/
theorem singleHolding_scaling_witness :
    calculatePortfolioValueHistory [scaleShares 3 ⟨2, 0, some [(0, 10), (1, 12)]⟩] =
      (calculatePortfolioValueHistory [⟨2, 0, some [(0, 10), (1, 12)]⟩]).map
        (fun q => (q.1, 3 * q.2)) ∧
    calculateTotalReturn
        (firstValue (calculatePortfolioValueHistory
          [scaleShares 3 ⟨2, 0, some [(0, 10), (1, 12)]⟩]))
        (lastValue (calculatePortfolioValueHistory
          [scaleShares 3 ⟨2, 0, some [(0, 10), (1, 12)]⟩])) =
      calculateTotalReturn
        (firstValue (calculatePortfolioValueHistory [⟨2, 0, some [(0, 10), (1, 12)]⟩]))
        (lastValue (calculatePortfolioValueHistory [⟨2, 0, some [(0, 10), (1, 12)]⟩])) :=
  singleHolding_scaling 3 (by norm_num) ⟨2, 0, some [(0, 10), (1, 12)]⟩
    (by simp [calculatePortfolioValueHistory, allDates, dropna, List.insertionSort,
      List.orderedInsert, List.dedup, List.flatMap])

theorem getLast?_cons_ne_nil {α : Type} (a : α) {l : List α} (h : l ≠ []) :
    (a :: l).getLast? = l.getLast? := by
  cases l with
  | nil => exact absurd rfl h
  | cons b tl => rw [List.getLast?_cons_cons]

/-- The lookup of `calculate_portfolio_value_history` is exactly
last-observation-carried-forward: on a strictly-date-sorted price series
containing an entry `(d, p)` with `d ≤ date` and no later entry at or
before `date`, the lookup yields `p`. -/
theorem lookupPrice_locf (df : List (ℕ × ℚ)) (date d : ℕ) (p : ℚ)
    (hsort : List.Pairwise (fun a b => a.1 < b.1) df)
    (hmem : (d, p) ∈ df) (hdle : d ≤ date)
    (hmax : ∀ q ∈ df, q.1 ≤ date → q.1 ≤ d) :
    lookupPrice df date = some p := by
  induction df with
  | nil => cases hmem
  | cons a tl ih =>
    have hhead : ∀ b ∈ tl, a.1 < b.1 := (List.pairwise_cons.1 hsort).1
    have htail : List.Pairwise (fun x y => x.1 < y.1) tl :=
      (List.pairwise_cons.1 hsort).2
    have hmax' : ∀ q ∈ tl, q.1 ≤ date → q.1 ≤ d :=
      fun q hq => hmax q (List.mem_cons_of_mem a hq)
    unfold lookupPrice
    by_cases ha : a.1 = date
    · rw [List.find?_cons_of_pos _ (by simp [ha])]
      have had : a.1 ≤ d := hmax a (List.mem_cons_self a tl) (le_of_eq ha)
      have hda : d = a.1 := le_antisymm (ha ▸ hdle) had
      rcases List.mem_cons.1 hmem with heq | htl
      · rw [← heq]
      · exact absurd (hhead (d, p) htl) (by omega)
    · rw [List.find?_cons_of_neg _ (by simp [ha])]
      rcases List.mem_cons.1 hmem with heq | htl
      · -- the sought entry is the head; nothing later is eligible
        have had : a.1 = d := by rw [← heq]
        have hfn : tl.find? (fun r => r.1 == date) = none := by
          rw [List.find?_eq_none]
          intro x hx
          simp only [beq_iff_eq]
          intro hxd
          have h1 : x.1 ≤ d := hmax' x hx (le_of_eq hxd)
          have h2 : d < x.1 := had ▸ hhead x hx
          omega
        have hfe : tl.filter (fun r => decide (r.1 ≤ date)) = [] := by
          rw [List.filter_eq_nil_iff]
          intro x hx
          simp only [decide_eq_true_eq]
          intro hxd
          have h1 : x.1 ≤ d := hmax' x hx hxd
          have h2 : d < x.1 := had ▸ hhead x hx
          omega
        rw [hfn, List.filter_cons_of_pos (by simp [had ▸ hdle]), hfe]
        simp [← heq]
      · -- the sought entry is in the tail: reduce to the tail lookup
        have hlt : a.1 < d := hhead _ htl
        have hale : a.1 ≤ date := le_trans (le_of_lt hlt) hdle
        have ihr := ih htail htl hmax'
        unfold lookupPrice at ihr
        cases hfind : tl.find? (fun r => r.1 == date) with
        | some r =>
          rw [hfind] at ihr
          exact ihr
        | none =>
          rw [hfind] at ihr
          have ihr' : Option.map (fun r => r.2)
              (tl.filter (fun r => decide (r.1 ≤ date))).getLast? = some p := ihr
          have hne : tl.filter (fun r => decide (r.1 ≤ date)) ≠ [] := by
            intro hnil
            rw [hnil] at ihr'
            simp at ihr'
          show Option.map (fun r => r.2)
            ((a :: tl).filter (fun r => decide (r.1 ≤ date))).getLast? = some p
          rw [List.filter_cons_of_pos (by simp [hale]),
            getLast?_cons_ne_nil a hne]
          exact ihr'

/-- Claim C5 (confirmed).  For a holding whose purchase date is at or
before the grid date, the contribution is `shares * p` where `p` is the
price at the most recent series date at or before the grid date (exact
date when present, otherwise carried forward, never interpolated and
never a later price). -/
theorem holding_locf (h : PHolding) (df : List (ℕ × ℚ)) (date d : ℕ) (p : ℚ)
    (hdata : h.data = some df)
    (hsort : List.Pairwise (fun a b => a.1 < b.1) df)
    (hmem : (d, p) ∈ df) (hdle : d ≤ date)
    (hmax : ∀ q ∈ df, q.1 ≤ date → q.1 ≤ d)
    (hpd : h.purchaseDate ≤ date) :
    lookupPrice df date = some p ∧ holdingContrib h date = h.shares * p := by
  have hl := lookupPrice_locf df date d p hsort hmem hdle hmax
  refine ⟨hl, ?_⟩
  simp [holdingContrib, hdata, hl, Nat.not_lt.mpr hpd]

/-- Witness for C5: a holding with prices at dates `[1, 3]` and a grid
date `2` between them contributes `shares * price-at-1`. -/
theorem holding_locf_witness :
    lookupPrice [(1, 10), (3, 20)] 2 = some 10 ∧
    holdingContrib ⟨5, 0, some [(1, 10), (3, 20)]⟩ 2 = 5 * 10 :=
  holding_locf ⟨5, 0, some [(1, 10), (3, 20)]⟩ [(1, 10), (3, 20)] 2 1 10 rfl
    (by decide) (by simp) (by decide) (by decide) (by decide)

/-- Claim C7 (confirmed).  Whenever `calculate_metrics` completes and
populates the metrics result, the `beta`, `alpha` and `benchmark_return`
fields are present (computed values, possibly NaN inside) exactly when
benchmark data is present and non-empty, and are the explicit
unavailable state `None` — distinct from zero — when the benchmark data
is missing (`None`) or empty. -/
theorem metrics_benchmark_optionality (sq : ℚ → ℚ) (rpow : ℚ → ℚ → ℚ)
    (rf td : ℚ) (history : List (ℕ × ℚ)) (bench : Option (List (ℕ × ℚ)))
    (m : MetricsResult)
    (hrun : calculateMetrics sq rpow rf td history bench = some m) :
    ((bench = none ∨ bench = some []) →
      m.beta = none ∧ m.alpha = none ∧ m.benchmarkReturn = none) ∧
    (∀ bs, bench = some bs → bs ≠ [] →
      m.beta ≠ none ∧ m.alpha ≠ none ∧ m.benchmarkReturn ≠ none) := by
  cases history with
  | nil => simp [calculateMetrics] at hrun
  | cons h0 ht =>
    cases hmdd : calculateMaxDrawdown (h0 :: ht) with
    | none => simp [calculateMetrics, hmdd] at hrun
    | some t =>
      obtain ⟨mdd, pk, tr⟩ := t
      cases bench with
      | none =>
        simp only [calculateMetrics, hmdd] at hrun
        rw [Option.some_inj] at hrun
        subst hrun
        exact ⟨fun _ => ⟨rfl, rfl, rfl⟩, fun bs hbs => by simp at hbs⟩
      | some bs =>
        cases bs with
        | nil =>
          simp only [calculateMetrics, hmdd, List.isEmpty_nil, if_true] at hrun
          rw [Option.some_inj] at hrun
          subst hrun
          refine ⟨fun _ => ⟨rfl, rfl, rfl⟩, fun bs' hbs' hne => ?_⟩
          rw [Option.some_inj] at hbs'
          exact absurd hbs'.symm hne
        | cons b0 bt =>
          simp only [calculateMetrics, hmdd, List.isEmpty_cons,
            Bool.false_eq_true, if_false] at hrun
          rw [Option.some_inj] at hrun
          subst hrun
          refine ⟨fun hcon => ?_, fun bs' hbs' hne => ?_⟩
          · rcases hcon with hcon | hcon <;> simp at hcon
          · exact ⟨by simp, by simp, by simp⟩

/-- Witness for C7: on a two-day history, with a non-empty benchmark all
three fields are present; with the benchmark attribute `None` all three
are in the unavailable state. -/
theorem metrics_benchmark_optionality_witness :
    (∃ m, calculateMetrics id (fun a _ => a) (3 / 100) 252 [(0, 100), (1, 110)]
        (some [(0, 50), (1, 55)]) = some m ∧
      m.beta ≠ none ∧ m.alpha ≠ none ∧ m.benchmarkReturn ≠ none) ∧
    (∃ m, calculateMetrics id (fun a _ => a) (3 / 100) 252 [(0, 100), (1, 110)]
        none = some m ∧
      m.beta = none ∧ m.alpha = none ∧ m.benchmarkReturn = none) := by
  have h1 : (calculateMetrics id (fun a _ => a) (3 / 100) 252 [(0, 100), (1, 110)]
      (some [(0, 50), (1, 55)])).isSome = true := by
    simp [calculateMetrics, calculateReturns, calculateMaxDrawdown, cumprodD,
      expandingMax, expMaxGo, List.find?, List.filter]
  have h2 : (calculateMetrics id (fun a _ => a) (3 / 100) 252 [(0, 100), (1, 110)]
      none).isSome = true := by
    simp [calculateMetrics, calculateReturns, calculateMaxDrawdown, cumprodD,
      expandingMax, expMaxGo, List.find?, List.filter]
  obtain ⟨m1, hm1⟩ := Option.isSome_iff_exists.1 h1
  obtain ⟨m2, hm2⟩ := Option.isSome_iff_exists.1 h2
  refine ⟨⟨m1, hm1, ?_⟩, ⟨m2, hm2, ?_⟩⟩
  · exact (metrics_benchmark_optionality id (fun a _ => a) (3 / 100) 252
      [(0, 100), (1, 110)] (some [(0, 50), (1, 55)]) m1 hm1).2
      [(0, 50), (1, 55)] rfl (by simp)
  · exact (metrics_benchmark_optionality id (fun a _ => a) (3 / 100) 252
      [(0, 100), (1, 110)] none m2 hm2).1 (Or.inl rfl)

end StockPortfolio
